import Mathlib

/-!
Verification development for a one-shot Google-Drive-to-local-directory
sync utility (a single Go source file, `main.go`).

The program is embedded shallowly:
- the filename sanitizer `cleanFilename` (a regex replacement) becomes a
  recursive function on `List Char`;
- the filesystem and all external effects (stat, download, create, copy,
  chtimes, timestamp parsing) become explicit oracle values threaded
  through a per-entry step function `syncStep` and a loop `syncLoop`,
  which mirror the body of the program's `main` loop statement by
  statement;
- the whole pipeline (argument check, mkdir, credential setup, folder
  query, listing query, sync loop) becomes `mainRun`, which also records
  a trace of the external actions it performs and the process exit code.
-/

namespace DriveSync

/-- Membership in the regex character class `[a-zA-Z0-9._-]` of
`var re = regexp.MustCompile` (main.go line 229): letters, digits,
dot, underscore and hyphen are kept; everything else is invalid. -/
def validChar (c : Char) : Bool :=
  ('a' ≤ c && c ≤ 'z') || ('A' ≤ c && c ≤ 'Z') || ('0' ≤ c && c ≤ '9')
    || c = '.' || c = '_' || c = '-'

/-- Character-level embedding of
`re.ReplaceAllString(in, "_")` with pattern `[^a-zA-Z0-9._-]+`
(main.go lines 229-233): every maximal run of invalid characters is
replaced by a single underscore.  The boolean argument records whether
the previous character was part of an invalid run (in which case the
underscore for that run has already been emitted). -/
def cleanAux : Bool → List Char → List Char
  | _, [] => []
  | inRun, c :: rest =>
    if validChar c then c :: cleanAux false rest
    else if inRun then cleanAux true rest
    else '_' :: cleanAux true rest

/-- Go function `cleanFilename` (main.go lines 231-233). -/
def cleanFilename (s : String) : String :=
  ⟨cleanAux false s.data⟩

/-- Remote file metadata requested by the listing query
(`Fields("files(id, name, modifiedTime)")`, plus `createdTime` which the
loop only logs). -/
structure RemoteFileEntry where
  id : String
  name : String
  createdTime : String
  modifiedTime : String
deriving Repr, DecidableEq

/-- Remote folder metadata requested by the folder query
(`Fields("files(id, name)")`). -/
structure RemoteFolder where
  id : String
  name : String
deriving Repr, DecidableEq

/-- Timestamps are abstract instants; only equality matters here. -/
abbrev Time := Int

/-- State of a local regular file: its byte content and its access /
modification times (`none` means the default times from creation,
that is `os.Chtimes` was never applied). -/
structure LocalFile where
  content : String
  atime : Option Time
  mtime : Option Time
deriving Repr, DecidableEq

/-- What the local filesystem holds at a given path, as seen by
`os.Stat`: nothing, a regular file, a directory, or a path whose `Stat`
fails with an error that is not `IsNotExist` (for example, permission
denied on a parent directory). -/
inductive FsObj
  | absent
  | file (f : LocalFile)
  | dir
  | inaccessible
deriving Repr, DecidableEq

/-- The local filesystem, a map from paths to objects. -/
def Fs := String → FsObj

/-- Point update of the filesystem. -/
def updateFs (fs : Fs) (p : String) (o : FsObj) : Fs :=
  fun q => if q = p then o else fs q

/-- Result of `os.Stat`: success (carrying `IsDir()`), a not-exist
error, or any other error (in which case the returned `FileInfo` is
nil). -/
inductive StatOutcome
  | ok (isDir : Bool)
  | errNotExist
  | errOther
deriving Repr, DecidableEq

/-- Model of `os.Stat` over the filesystem model. -/
def stat (fs : Fs) (p : String) : StatOutcome :=
  match fs p with
  | .absent => .errNotExist
  | .file _ => .ok false
  | .dir => .ok true
  | .inaccessible => .errOther

/-- Go function `fileExists` (main.go lines 221-227):
`info, err := os.Stat(filename); if os.IsNotExist(err) { return false };
return !info.IsDir()`.  When `Stat` fails with an error other than
not-exist, `info` is nil and `info.IsDir()` dereferences a nil pointer,
so the function panics instead of returning; `none` models that panic. -/
def fileExists (fs : Fs) (filename : String) : Option Bool :=
  match stat fs filename with
  | .errNotExist => some false
  | .ok isDir => some (!isDir)
  | .errOther => none

/-- Go's `time.RFC3339Nano` layout constant, the layout `main` passes to
`time.Parse` at line 207. -/
def timeRFC3339Nano : String := "2006-01-02T15:04:05.999999999Z07:00"

/-- Oracle for the external effects one iteration of the download loop
can perform: the outcome of `srv.Files.Get(f.Id).Download()` (error, or
the response body), whether `os.Create` succeeds, whether
`io.Copy(out, resp.Body)` returns an error and, if it does, the bytes it
managed to write before failing, whether `os.Chtimes` succeeds, and the
behaviour of `time.Parse` (layout and value to parsed instant). -/
structure EntryEnv where
  download : Except Unit String
  createOk : Bool
  copyErr : Bool
  copiedOnErr : String
  chtimesOk : Bool
  parse : String → String → Option Time

/-- How one loop iteration ended, following the log lines of the source:
skipped (file already exists), download failed, create failed, stored
(with the flag recording whether `os.Chtimes` was applied), or a panic
escaping from `fileExists`. -/
inductive EntryOutcome
  | panicked
  | skipped
  | downloadFailed
  | createFailed
  | stored (timestamped : Bool)
deriving Repr, DecidableEq

/-- Externally visible actions of a run, recorded as a trace. -/
inductive Action
  | mkdir (dir : String)
  | readCred (path : String)
  | folderQuery (q : String) (pageSize : Nat)
  | listQuery (q : String) (pageSize : Nat) (orderBy : String)
  | downloadReq (fileId : String)
deriving Repr, DecidableEq

/-- Whether an action is a listing query. -/
def isListQuery : Action → Bool
  | .listQuery _ _ _ => true
  | _ => false

/-- Whether an action is a download request. -/
def isDownloadReq : Action → Bool
  | .downloadReq _ => true
  | _ => false

/-- Result of one loop iteration: its outcome, whether a download
request was issued, and the filesystem afterwards. -/
structure StepResult where
  outcome : EntryOutcome
  downloadRequested : Bool
  fs : Fs

/-- Computed local path of an entry, main.go line 171:
`outName := targetDir + "/" + cleanFilename(f.Name)`. -/
def outPath (targetDir : String) (f : RemoteFileEntry) : String :=
  targetDir ++ "/" ++ cleanFilename f.name

/-- One iteration of the `for _, f := range files.Files` loop
(main.go lines 168-218), statement by statement:
compute the output path; skip if `fileExists(outName)`; issue the
download request and continue on error; `os.Create(outName)` and
continue on error; `io.Copy` with its error discarded (on a copy error
the file keeps whatever bytes were written); parse `f.ModifiedTime`
with layout `time.RFC3339Nano`; on success apply
`os.Chtimes(outName, t, t)` (warn only if it fails), on failure warn
and leave the times from creation. -/
def syncStep (targetDir : String) (env : EntryEnv) (fs : Fs)
    (f : RemoteFileEntry) : StepResult :=
  match fileExists fs (outPath targetDir f) with
  | none => ⟨.panicked, false, fs⟩
  | some true => ⟨.skipped, false, fs⟩
  | some false =>
    match env.download with
    | .error _ => ⟨.downloadFailed, true, fs⟩
    | .ok body =>
      if env.createOk then
        let content := if env.copyErr then env.copiedOnErr else body
        match env.parse timeRFC3339Nano f.modifiedTime with
        | some t =>
          if env.chtimesOk then
            ⟨.stored true, true,
             updateFs fs (outPath targetDir f) (.file ⟨content, some t, some t⟩)⟩
          else
            ⟨.stored false, true,
             updateFs fs (outPath targetDir f) (.file ⟨content, none, none⟩)⟩
        | none =>
          ⟨.stored false, true,
           updateFs fs (outPath targetDir f) (.file ⟨content, none, none⟩)⟩
      else ⟨.createFailed, true, fs⟩

/-- Result of running the loop over a list of entries. -/
structure LoopResult where
  fs : Fs
  outcomes : List EntryOutcome
  trace : List Action

/-- The download loop over the listed entries, each paired with its
effect oracle.  A panic aborts the program, so nothing after a panicked
entry is processed; every other outcome continues with the next entry. -/
def syncLoop (targetDir : String) (fs : Fs) :
    List (RemoteFileEntry × EntryEnv) → LoopResult
  | [] => ⟨fs, [], []⟩
  | (f, env) :: rest =>
    let r := syncStep targetDir env fs f
    let tr := if r.downloadRequested then [Action.downloadReq f.id] else []
    match r.outcome with
    | .panicked => ⟨r.fs, [.panicked], tr⟩
    | o =>
      let l := syncLoop targetDir r.fs rest
      ⟨l.fs, o :: l.outcomes, tr ++ l.trace⟩

/-- The query string of the folder-resolution call (main.go line 138):
`fmt.Sprintf("mimeType = 'application/vnd.google-apps.folder' and name = '%s'", srcDir)`. -/
def folderQueryString (srcDir : String) : String :=
  "mimeType = 'application/vnd.google-apps.folder' and name = '" ++ srcDir ++ "'"

/-- The query string of the children-listing call (main.go line 154):
`fmt.Sprintf("'%s' in parents", folder.Id)`. -/
def childrenQueryString (folderId : String) : String :=
  "'" ++ folderId ++ "' in parents"

/-- Oracle for the run-level external effects: whether
`os.MkdirAll(targetDir, 0755)` succeeds; whether the credential setup
(reading `credFile`, `google.ConfigFromJSON`, `getClient`, `drive.New`)
succeeds — collapsed to one flag since each failure is a `log.Fatalf`
and no claim distinguishes them; the answers of the folder and listing
queries (`.error` models a transport error); and the per-entry effect
oracle for the download loop. -/
structure RunEnv where
  mkdirOk : Bool
  setupOk : Bool
  folderResult : Except Unit (List RemoteFolder)
  listResult : Except Unit (List RemoteFileEntry)
  entryEnv : RemoteFileEntry → EntryEnv

/-- Result of a whole run: the process exit code (0 for a normal return
from `main`, 1 for `log.Fatalf`, 2 for a runtime panic), the trace of
external actions, the loop outcomes, and the final filesystem. -/
structure RunResult where
  exitCode : Nat
  trace : List Action
  outcomes : List EntryOutcome
  fs : Fs

/-- The `main` function (main.go lines 104-219), on `os.Args = argv`:
with any argument count other than four (program name plus three
positional arguments) it prints usage and returns — a normal exit with
status 0 and no action taken.  Otherwise it creates the target
directory, performs credential setup, resolves the folder
(`PageSize(1)`; zero matches is fatal before any listing), lists the
children (`PageSize(25)`, `OrderBy("createdTime desc")`, single query,
no pagination; zero files is fatal before the loop), and runs the
download loop. -/
def mainRun (argv : List String) (env : RunEnv) (fs : Fs) : RunResult :=
  match argv with
  | [_, srcDir, targetDir, credFile] =>
    if env.mkdirOk then
      if env.setupOk then
        let t0 : List Action :=
          [.mkdir targetDir, .readCred credFile,
           .folderQuery (folderQueryString srcDir) 1]
        match env.folderResult with
        | .error _ => ⟨1, t0, [], fs⟩
        | .ok [] => ⟨1, t0, [], fs⟩
        | .ok (folder :: _) =>
          let t1 : List Action :=
            t0 ++ [.listQuery (childrenQueryString folder.id) 25 "createdTime desc"]
          match env.listResult with
          | .error _ => ⟨1, t1, [], fs⟩
          | .ok [] => ⟨1, t1, [], fs⟩
          | .ok files =>
            let l := syncLoop targetDir fs (files.map fun f => (f, env.entryEnv f))
            ⟨if l.outcomes.contains .panicked then 2 else 0,
             t1 ++ l.trace, l.outcomes, l.fs⟩
      else ⟨1, [.mkdir targetDir, .readCred credFile], [], fs⟩
    else ⟨1, [.mkdir targetDir], [], fs⟩
  | _ => ⟨0, [], [], fs⟩

/-! Helper lemmas about the sanitizer. -/

lemma validChar_underscore : validChar '_' = true := by decide

/-- Unfolding: a valid head is kept and the run flag resets. -/
lemma cleanAux_cons_valid (b : Bool) (d : Char) (l : List Char)
    (hd : validChar d = true) :
    cleanAux b (d :: l) = d :: cleanAux false l := by
  simp [cleanAux, hd]

/-- Unfolding: an invalid head outside a run emits one underscore. -/
lemma cleanAux_cons_invalid_false (d : Char) (l : List Char)
    (hd : validChar d = false) :
    cleanAux false (d :: l) = '_' :: cleanAux true l := by
  simp [cleanAux, hd]

/-- Unfolding: an invalid head inside a run is dropped. -/
lemma cleanAux_cons_invalid_true (d : Char) (l : List Char)
    (hd : validChar d = false) :
    cleanAux true (d :: l) = cleanAux true l := by
  simp [cleanAux, hd]

/-- Every character the sanitizer emits lies in the valid class. -/
lemma cleanAux_all_valid :
    ∀ (s : List Char) (b : Bool), ∀ c ∈ cleanAux b s, validChar c = true := by
  intro s
  induction s with
  | nil => intro b c hc; simp [cleanAux] at hc
  | cons d rest ih =>
    intro b c hc
    by_cases hd : validChar d = true
    · rw [cleanAux_cons_valid b d rest hd] at hc
      rcases List.mem_cons.mp hc with hc | hc
      · exact hc ▸ hd
      · exact ih false c hc
    · replace hd : validChar d = false := by simpa using hd
      cases b with
      | true =>
        rw [cleanAux_cons_invalid_true d rest hd] at hc
        exact ih true c hc
      | false =>
        rw [cleanAux_cons_invalid_false d rest hd] at hc
        rcases List.mem_cons.mp hc with hc | hc
        · exact hc ▸ validChar_underscore
        · exact ih true c hc

/-- On a list of valid characters the sanitizer is the identity. -/
lemma cleanAux_of_all_valid :
    ∀ (s : List Char) (b : Bool), (∀ c ∈ s, validChar c = true) →
      cleanAux b s = s := by
  intro s
  induction s with
  | nil => intro b _; rfl
  | cons d rest ih =>
    intro b h
    have hd : validChar d = true := h d (List.mem_cons_self d rest)
    rw [cleanAux_cons_valid b d rest hd]
    exact congrArg (d :: ·) (ih false fun c hc => h c (List.mem_cons_of_mem d hc))

/-- Inside an invalid run, further invalid characters are dropped. -/
lemma cleanAux_drop_invalid_run :
    ∀ (run rest : List Char), (∀ c ∈ run, validChar c = false) →
      cleanAux true (run ++ rest) = cleanAux true rest := by
  intro run
  induction run with
  | nil => intro rest _; rfl
  | cons d run' ih =>
    intro rest h
    have hd : validChar d = false := h d (List.mem_cons_self d run')
    rw [List.cons_append, cleanAux_cons_invalid_true d (run' ++ rest) hd]
    exact ih rest fun c hc => h c (List.mem_cons_of_mem d hc)

/-- When the next character is valid (or the input ends), the in-run
flag makes no difference. -/
lemma cleanAux_true_eq_false_of_next_valid :
    ∀ (rest : List Char), (∀ d r, rest = d :: r → validChar d = true) →
      cleanAux true rest = cleanAux false rest := by
  intro rest h
  cases rest with
  | nil => rfl
  | cons d r =>
    have hd : validChar d = true := h d r rfl
    rw [cleanAux_cons_valid true d r hd, cleanAux_cons_valid false d r hd]

/-- C2.  Sanitization keeps each valid character; a maximal run of
invalid characters (nonempty, all invalid, followed by a valid
character or the end of input) becomes a single underscore; every
character of the output is in the class `[A-Za-z0-9._-]`; and the
function is deterministic. -/
theorem sanitize_replaces_and_collapses :
    (∀ (c : Char) (rest : List Char), validChar c = true →
        cleanAux false (c :: rest) = c :: cleanAux false rest)
  ∧ (∀ (run rest : List Char), run ≠ [] →
        (∀ c ∈ run, validChar c = false) →
        (∀ d r, rest = d :: r → validChar d = true) →
        cleanAux false (run ++ rest) = '_' :: cleanAux false rest)
  ∧ (∀ s : String, ∀ c ∈ (cleanFilename s).data, validChar c = true)
  ∧ (∀ s t : String, s = t → cleanFilename s = cleanFilename t) := by
  refine ⟨?_, ?_, ?_, ?_⟩
  · intro c rest hc
    exact cleanAux_cons_valid false c rest hc
  · intro run rest hne hrun hnext
    cases run with
    | nil => exact absurd rfl hne
    | cons d run' =>
      have hd : validChar d = false := hrun d (List.mem_cons_self d run')
      rw [List.cons_append, cleanAux_cons_invalid_false d (run' ++ rest) hd,
          cleanAux_drop_invalid_run run' rest
            (fun c hc => hrun c (List.mem_cons_of_mem d hc)),
          cleanAux_true_eq_false_of_next_valid rest hnext]
  · intro s c hc
    exact cleanAux_all_valid s.data false c hc
  · intro s t h
    exact congrArg cleanFilename h

/-- Witness for C2 at concrete inputs: a valid head is kept, the run
of two spaces before `b` collapses to one underscore, the output of
sanitizing a sample string is entirely valid, and determinism at a
sample pair. -/
theorem sanitize_replaces_and_collapses_witness :
    cleanAux false ('a' :: [' ', ' ', 'b']) = 'a' :: cleanAux false [' ', ' ', 'b']
  ∧ cleanAux false ([' ', ' '] ++ ['b']) = '_' :: cleanAux false ['b']
  ∧ (∀ c ∈ (cleanFilename "a %b").data, validChar c = true)
  ∧ cleanFilename "a %b" = cleanFilename "a %b" :=
  ⟨sanitize_replaces_and_collapses.1 'a' [' ', ' ', 'b'] (by decide),
   sanitize_replaces_and_collapses.2.1 [' ', ' '] ['b'] (by decide) (by decide)
     (by intro d r h; cases h; decide),
   sanitize_replaces_and_collapses.2.2.1 "a %b",
   sanitize_replaces_and_collapses.2.2.2 "a %b" "a %b" rfl⟩

/-- C3.  Filename sanitization is idempotent. -/
theorem sanitize_idempotent :
    ∀ s : String, cleanFilename (cleanFilename s) = cleanFilename s := by
  intro s
  show String.mk (cleanAux false (cleanAux false s.data)) = String.mk (cleanAux false s.data)
  rw [cleanAux_of_all_valid (cleanAux false s.data) false
        (cleanAux_all_valid s.data false)]

/-! Helper lemmas about `fileExists`, `syncStep` and `syncLoop`. -/

lemma fileExists_of_file (fs : Fs) (p : String) (lf : LocalFile)
    (h : fs p = .file lf) : fileExists fs p = some true := by
  simp [fileExists, stat, h]

lemma fileExists_of_dir (fs : Fs) (p : String) (h : fs p = .dir) :
    fileExists fs p = some false := by
  simp [fileExists, stat, h]

lemma fileExists_of_absent (fs : Fs) (p : String) (h : fs p = .absent) :
    fileExists fs p = some false := by
  simp [fileExists, stat, h]

lemma fileExists_of_inaccessible (fs : Fs) (p : String)
    (h : fs p = .inaccessible) : fileExists fs p = none := by
  simp [fileExists, stat, h]

lemma updateFs_same (fs : Fs) (p : String) (o : FsObj) :
    updateFs fs p o p = o := by
  simp [updateFs]

lemma syncStep_skipped (targetDir : String) (env : EntryEnv) (fs : Fs)
    (f : RemoteFileEntry)
    (h : fileExists fs (outPath targetDir f) = some true) :
    syncStep targetDir env fs f = ⟨.skipped, false, fs⟩ := by
  simp [syncStep, h]

lemma syncStep_panicked (targetDir : String) (env : EntryEnv) (fs : Fs)
    (f : RemoteFileEntry)
    (h : fileExists fs (outPath targetDir f) = none) :
    syncStep targetDir env fs f = ⟨.panicked, false, fs⟩ := by
  simp [syncStep, h]

lemma syncStep_downloadFailed (targetDir : String) (env : EntryEnv) (fs : Fs)
    (f : RemoteFileEntry)
    (h : fileExists fs (outPath targetDir f) = some false)
    (hdl : env.download = .error ()) :
    syncStep targetDir env fs f = ⟨.downloadFailed, true, fs⟩ := by
  simp [syncStep, h, hdl]

lemma syncStep_createFailed (targetDir : String) (env : EntryEnv) (fs : Fs)
    (f : RemoteFileEntry) (body : String)
    (h : fileExists fs (outPath targetDir f) = some false)
    (hdl : env.download = .ok body) (hcr : env.createOk = false) :
    syncStep targetDir env fs f = ⟨.createFailed, true, fs⟩ := by
  simp [syncStep, h, hdl, hcr]

lemma syncStep_stored_timestamped (targetDir : String) (env : EntryEnv)
    (fs : Fs) (f : RemoteFileEntry) (body : String) (t : Time)
    (h : fileExists fs (outPath targetDir f) = some false)
    (hdl : env.download = .ok body) (hcr : env.createOk = true)
    (hp : env.parse timeRFC3339Nano f.modifiedTime = some t)
    (hct : env.chtimesOk = true) :
    syncStep targetDir env fs f =
      ⟨.stored true, true,
       updateFs fs (outPath targetDir f)
         (.file ⟨(if env.copyErr then env.copiedOnErr else body), some t, some t⟩)⟩ := by
  simp [syncStep, h, hdl, hcr, hp, hct]

lemma syncStep_stored_noparse (targetDir : String) (env : EntryEnv)
    (fs : Fs) (f : RemoteFileEntry) (body : String)
    (h : fileExists fs (outPath targetDir f) = some false)
    (hdl : env.download = .ok body) (hcr : env.createOk = true)
    (hp : env.parse timeRFC3339Nano f.modifiedTime = none) :
    syncStep targetDir env fs f =
      ⟨.stored false, true,
       updateFs fs (outPath targetDir f)
         (.file ⟨(if env.copyErr then env.copiedOnErr else body), none, none⟩)⟩ := by
  simp [syncStep, h, hdl, hcr, hp]

/-- When a step does not panic, the loop records its outcome and goes on
with the remaining entries on the updated filesystem. -/
lemma syncLoop_cons_continues (targetDir : String) (fs : Fs)
    (f : RemoteFileEntry) (env : EntryEnv)
    (rest : List (RemoteFileEntry × EntryEnv))
    (hnp : (syncStep targetDir env fs f).outcome ≠ .panicked) :
    (syncLoop targetDir fs ((f, env) :: rest)).outcomes =
      (syncStep targetDir env fs f).outcome ::
        (syncLoop targetDir (syncStep targetDir env fs f).fs rest).outcomes := by
  simp only [syncLoop]

/-- C1.  If a regular file already exists at the computed sanitized
local path, the entry is skipped: no download request is issued and the
filesystem (in particular the local file) is unchanged.  If the path
holds a directory, the existence check reports false and a download
request is issued. -/
theorem exists_check_skip (targetDir : String) (env : EntryEnv) (fs : Fs)
    (f : RemoteFileEntry) :
    (∀ lf : LocalFile, fs (outPath targetDir f) = .file lf →
        (syncStep targetDir env fs f).outcome = .skipped ∧
        (syncStep targetDir env fs f).downloadRequested = false ∧
        (syncStep targetDir env fs f).fs = fs)
  ∧ (fs (outPath targetDir f) = .dir →
        (syncStep targetDir env fs f).downloadRequested = true) := by
  constructor
  · intro lf h
    rw [syncStep_skipped targetDir env fs f
          (fileExists_of_file fs (outPath targetDir f) lf h)]
    exact ⟨rfl, rfl, rfl⟩
  · intro h
    have hex := fileExists_of_dir fs (outPath targetDir f) h
    simp only [syncStep, hex]
    cases hdl : env.download with
    | error e => rfl
    | ok body =>
      by_cases hcr : env.createOk
      · simp only [hcr, if_true]
        cases hp : env.parse timeRFC3339Nano f.modifiedTime with
        | none => rfl
        | some t => by_cases hct : env.chtimesOk <;> simp [hct]
      · simp [hcr]

/-- Witness for C1: with a regular file at `w/a.txt` the entry
`entryA` is skipped without a download and the filesystem is unchanged;
with a directory there instead, a download request is issued. -/
theorem exists_check_skip_witness :
    ((syncStep "w" ⟨.ok "hello", true, false, "", true, fun _ _ => some 5⟩
        (fun p => if p = "w/a.txt" then .file ⟨"x", none, none⟩ else .absent)
        ⟨"id1", "a.txt", "c", "m"⟩).outcome = .skipped ∧
      (syncStep "w" ⟨.ok "hello", true, false, "", true, fun _ _ => some 5⟩
        (fun p => if p = "w/a.txt" then .file ⟨"x", none, none⟩ else .absent)
        ⟨"id1", "a.txt", "c", "m"⟩).downloadRequested = false ∧
      (syncStep "w" ⟨.ok "hello", true, false, "", true, fun _ _ => some 5⟩
        (fun p => if p = "w/a.txt" then .file ⟨"x", none, none⟩ else .absent)
        ⟨"id1", "a.txt", "c", "m"⟩).fs =
        (fun p => if p = "w/a.txt" then .file ⟨"x", none, none⟩ else .absent))
  ∧ (syncStep "w" ⟨.ok "hello", true, false, "", true, fun _ _ => some 5⟩
        (fun p => if p = "w/a.txt" then FsObj.dir else .absent)
        ⟨"id1", "a.txt", "c", "m"⟩).downloadRequested = true :=
  ⟨(exists_check_skip "w" _ _ _).1 ⟨"x", none, none⟩ (by decide),
   (exists_check_skip "w" _ _ _).2 (by decide)⟩

/-- C4.  Per-file failures are non-fatal: an entry whose download
request fails is marked download-failed, and an entry whose local file
cannot be created is marked create-failed; in both cases the loop
records that outcome and processes the remaining entries (on the
unchanged filesystem). -/
theorem perfile_failures_nonfatal (targetDir : String) (env : EntryEnv)
    (fs : Fs) (f : RemoteFileEntry)
    (rest : List (RemoteFileEntry × EntryEnv)) :
    (fileExists fs (outPath targetDir f) = some false →
      env.download = .error () →
      (syncStep targetDir env fs f).outcome = .downloadFailed ∧
      (syncLoop targetDir fs ((f, env) :: rest)).outcomes =
        .downloadFailed :: (syncLoop targetDir fs rest).outcomes)
  ∧ (∀ body : String, fileExists fs (outPath targetDir f) = some false →
      env.download = .ok body → env.createOk = false →
      (syncStep targetDir env fs f).outcome = .createFailed ∧
      (syncLoop targetDir fs ((f, env) :: rest)).outcomes =
        .createFailed :: (syncLoop targetDir fs rest).outcomes) := by
  constructor
  · intro hex hdl
    have hstep := syncStep_downloadFailed targetDir env fs f hex hdl
    refine ⟨by rw [hstep], ?_⟩
    have hc := syncLoop_cons_continues targetDir fs f env rest (by rw [hstep]; simp)
    rw [hc, hstep]
  · intro body hex hdl hcr
    have hstep := syncStep_createFailed targetDir env fs f body hex hdl hcr
    refine ⟨by rw [hstep], ?_⟩
    have hc := syncLoop_cons_continues targetDir fs f env rest (by rw [hstep]; simp)
    rw [hc, hstep]

/-- Witness for C4: in a two-entry run whose first entry fails (to
download, respectively to be created), the first outcome is the failure
and the second entry is still processed. -/
theorem perfile_failures_nonfatal_witness :
    ((syncStep "w" ⟨.error (), true, false, "", true, fun _ _ => some 5⟩
        (fun _ => FsObj.absent) ⟨"id1", "a.txt", "c", "m"⟩).outcome = .downloadFailed ∧
      (syncLoop "w" (fun _ => FsObj.absent)
          [(⟨"id1", "a.txt", "c", "m"⟩, ⟨.error (), true, false, "", true, fun _ _ => some 5⟩),
           (⟨"id2", "b.txt", "c", "m"⟩, ⟨.ok "hello", true, false, "", true, fun _ _ => some 5⟩)]).outcomes =
        .downloadFailed :: (syncLoop "w" (fun _ => FsObj.absent)
          [(⟨"id2", "b.txt", "c", "m"⟩, ⟨.ok "hello", true, false, "", true, fun _ _ => some 5⟩)]).outcomes)
  ∧ ((syncStep "w" ⟨.ok "hello", false, false, "", true, fun _ _ => some 5⟩
        (fun _ => FsObj.absent) ⟨"id1", "a.txt", "c", "m"⟩).outcome = .createFailed ∧
      (syncLoop "w" (fun _ => FsObj.absent)
          [(⟨"id1", "a.txt", "c", "m"⟩, ⟨.ok "hello", false, false, "", true, fun _ _ => some 5⟩),
           (⟨"id2", "b.txt", "c", "m"⟩, ⟨.ok "hello", true, false, "", true, fun _ _ => some 5⟩)]).outcomes =
        .createFailed :: (syncLoop "w" (fun _ => FsObj.absent)
          [(⟨"id2", "b.txt", "c", "m"⟩, ⟨.ok "hello", true, false, "", true, fun _ _ => some 5⟩)]).outcomes) :=
  ⟨(perfile_failures_nonfatal "w" _ _ _ _).1 (by decide) rfl,
   (perfile_failures_nonfatal "w" _ _ _ _).2 "hello" (by decide) rfl rfl⟩

/-- C5.  After a successful download and file write, the remote
modification timestamp is parsed with layout `time.RFC3339Nano`; on a
successful parse (and a successful `os.Chtimes`) the local file carries
the parsed instant as both access and modification time; on parse
failure the file remains written with its creation-time timestamps, the
entry is still logged as stored, and the loop continues with the
remaining entries. -/
theorem timestamp_application (targetDir : String) (env : EntryEnv)
    (fs : Fs) (f : RemoteFileEntry) (body : String)
    (hex : fileExists fs (outPath targetDir f) = some false)
    (hdl : env.download = .ok body)
    (hcr : env.createOk = true) :
    (∀ t : Time, env.parse timeRFC3339Nano f.modifiedTime = some t →
        env.chtimesOk = true →
        (syncStep targetDir env fs f).fs (outPath targetDir f) =
          .file ⟨(if env.copyErr then env.copiedOnErr else body), some t, some t⟩)
  ∧ (env.parse timeRFC3339Nano f.modifiedTime = none →
        (syncStep targetDir env fs f).outcome = .stored false ∧
        (syncStep targetDir env fs f).fs (outPath targetDir f) =
          .file ⟨(if env.copyErr then env.copiedOnErr else body), none, none⟩ ∧
        ∀ rest : List (RemoteFileEntry × EntryEnv),
          (syncLoop targetDir fs ((f, env) :: rest)).outcomes =
            .stored false ::
              (syncLoop targetDir (syncStep targetDir env fs f).fs rest).outcomes) := by
  constructor
  · intro t hp hct
    rw [syncStep_stored_timestamped targetDir env fs f body t hex hdl hcr hp hct]
    exact updateFs_same _ _ _
  · intro hp
    have hstep := syncStep_stored_noparse targetDir env fs f body hex hdl hcr hp
    refine ⟨by rw [hstep], by rw [hstep]; exact updateFs_same _ _ _, ?_⟩
    intro rest
    have hc := syncLoop_cons_continues targetDir fs f env rest (by rw [hstep]; simp)
    rw [hc, hstep]

/-- Witness for C5: with body `hello` and a parse yielding instant 5,
the stored file carries times 5/5; with an unparsable timestamp the
file is still written, the entry counts as stored, and a following
entry is still processed. -/
theorem timestamp_application_witness :
    (syncStep "w" ⟨.ok "hello", true, false, "", true, fun _ _ => some 5⟩
        (fun _ => FsObj.absent) ⟨"id1", "a.txt", "c", "m"⟩).fs
        (outPath "w" ⟨"id1", "a.txt", "c", "m"⟩) =
      .file ⟨"hello", some 5, some 5⟩
  ∧ ((syncStep "w" ⟨.ok "hello", true, false, "", true, fun _ _ => none⟩
        (fun _ => FsObj.absent) ⟨"id1", "a.txt", "c", "m"⟩).outcome = .stored false ∧
      (syncStep "w" ⟨.ok "hello", true, false, "", true, fun _ _ => none⟩
        (fun _ => FsObj.absent) ⟨"id1", "a.txt", "c", "m"⟩).fs
        (outPath "w" ⟨"id1", "a.txt", "c", "m"⟩) = .file ⟨"hello", none, none⟩ ∧
      ∀ rest : List (RemoteFileEntry × EntryEnv),
        (syncLoop "w" (fun _ => FsObj.absent)
            ((⟨"id1", "a.txt", "c", "m"⟩,
              (⟨.ok "hello", true, false, "", true, fun _ _ => none⟩ : EntryEnv)) :: rest)).outcomes =
          .stored false ::
            (syncLoop "w"
              (syncStep "w" ⟨.ok "hello", true, false, "", true, fun _ _ => none⟩
                (fun _ => FsObj.absent) ⟨"id1", "a.txt", "c", "m"⟩).fs rest).outcomes) :=
  ⟨(timestamp_application "w" _ _ _ "hello" (by decide) rfl rfl).1 5 rfl rfl,
   (timestamp_application "w" _ _ _ "hello" (by decide) rfl rfl).2 rfl⟩

/-- C9.  The existence check returns a boolean whenever `os.Stat`
succeeds or fails with a not-exist error; when `Stat` fails with any
other error the returned `FileInfo` is nil, `fileExists` dereferences
it, and the program panics — a loop that reaches such an entry stops
there, processing nothing further. -/
theorem stat_error_panics (fs : Fs) (p : String) :
    (fs p ≠ .inaccessible → (fileExists fs p).isSome = true)
  ∧ (fs p = .inaccessible →
      fileExists fs p = none ∧
      ∀ (targetDir : String) (env : EntryEnv) (f : RemoteFileEntry)
        (rest : List (RemoteFileEntry × EntryEnv)),
        outPath targetDir f = p →
        (syncLoop targetDir fs ((f, env) :: rest)).outcomes = [.panicked]) := by
  constructor
  · intro h
    cases hobj : fs p with
    | absent => simp [fileExists, stat, hobj]
    | file lf => simp [fileExists, stat, hobj]
    | dir => simp [fileExists, stat, hobj]
    | inaccessible => exact absurd hobj h
  · intro h
    refine ⟨fileExists_of_inaccessible fs p h, ?_⟩
    intro targetDir env f rest hpath
    have hex : fileExists fs (outPath targetDir f) = none := by
      rw [hpath]; exact fileExists_of_inaccessible fs p h
    have hstep := syncStep_panicked targetDir env fs f hex
    simp only [syncLoop, hstep]

/-- Witness for C9: on a filesystem whose only oddity is an
inaccessible path `w/a.txt`, the existence check returns no boolean at
that path, and a two-entry loop starting there yields only the panic;
on the empty filesystem the check is total. -/
theorem stat_error_panics_witness :
    fileExists (fun p => if p = "w/a.txt" then FsObj.inaccessible else .absent) "w/a.txt" = none
  ∧ (syncLoop "w" (fun p => if p = "w/a.txt" then FsObj.inaccessible else .absent)
        [(⟨"id1", "a.txt", "c", "m"⟩, ⟨.ok "hello", true, false, "", true, fun _ _ => some 5⟩),
         (⟨"id2", "b.txt", "c", "m"⟩, ⟨.ok "hello", true, false, "", true, fun _ _ => some 5⟩)]).outcomes =
      [.panicked]
  ∧ (fileExists (fun _ => FsObj.absent) "w/a.txt").isSome = true :=
  ⟨((stat_error_panics (fun p => if p = "w/a.txt" then FsObj.inaccessible else .absent)
        "w/a.txt").2 (by decide)).1,
   ((stat_error_panics (fun p => if p = "w/a.txt" then FsObj.inaccessible else .absent)
        "w/a.txt").2 (by decide)).2 "w" _ _ _ (by decide),
   (stat_error_panics (fun _ => FsObj.absent) "w/a.txt").1 (by decide)⟩

/-- C10.  The error of `io.Copy` is discarded: when the copy fails
partway (leaving content different from the response body), the
truncated local file is kept, its timestamps are still set from the
parsed remote modification time, the entry ends as stored; and on any
later run, no matter the effect oracle, the existence check skips the
entry without a download request, so the truncated content is never
re-downloaded. -/
theorem copy_error_discarded (targetDir : String) (env env2 : EntryEnv)
    (fs : Fs) (f : RemoteFileEntry) (body : String) (t : Time)
    (hex : fileExists fs (outPath targetDir f) = some false)
    (hdl : env.download = .ok body)
    (hcr : env.createOk = true)
    (hce : env.copyErr = true)
    (htr : env.copiedOnErr ≠ body)
    (hp : env.parse timeRFC3339Nano f.modifiedTime = some t)
    (hct : env.chtimesOk = true) :
    (syncStep targetDir env fs f).outcome = .stored true
  ∧ (syncStep targetDir env fs f).fs (outPath targetDir f) =
      .file ⟨env.copiedOnErr, some t, some t⟩
  ∧ (syncStep targetDir env2 (syncStep targetDir env fs f).fs f).outcome = .skipped
  ∧ (syncStep targetDir env2 (syncStep targetDir env fs f).fs f).downloadRequested
      = false := by
  have hstep := syncStep_stored_timestamped targetDir env fs f body t hex hdl hcr hp hct
  have hfile : (syncStep targetDir env fs f).fs (outPath targetDir f) =
      .file ⟨env.copiedOnErr, some t, some t⟩ := by
    rw [hstep]
    show updateFs fs (outPath targetDir f) _ (outPath targetDir f) = _
    rw [updateFs_same]
    simp [hce]
  have hskip := syncStep_skipped targetDir env2 (syncStep targetDir env fs f).fs f
      (fileExists_of_file _ _ _ hfile)
  exact ⟨by rw [hstep], hfile, by rw [hskip], by rw [hskip]⟩

/-- Witness for C10: the copy of body `hello` fails after writing
`he`; the file is kept as `he` with times 5/5, the entry is stored, and
a rerun of the step on the resulting filesystem skips it without a
download. -/
theorem copy_error_discarded_witness :
    (syncStep "w" ⟨.ok "hello", true, true, "he", true, fun _ _ => some 5⟩
        (fun _ => FsObj.absent) ⟨"id1", "a.txt", "c", "m"⟩).outcome = .stored true
  ∧ (syncStep "w" ⟨.ok "hello", true, true, "he", true, fun _ _ => some 5⟩
        (fun _ => FsObj.absent) ⟨"id1", "a.txt", "c", "m"⟩).fs
      (outPath "w" ⟨"id1", "a.txt", "c", "m"⟩) = .file ⟨"he", some 5, some 5⟩
  ∧ (syncStep "w" ⟨.error (), false, false, "", false, fun _ _ => none⟩
        (syncStep "w" ⟨.ok "hello", true, true, "he", true, fun _ _ => some 5⟩
          (fun _ => FsObj.absent) ⟨"id1", "a.txt", "c", "m"⟩).fs
        ⟨"id1", "a.txt", "c", "m"⟩).outcome = .skipped
  ∧ (syncStep "w" ⟨.error (), false, false, "", false, fun _ _ => none⟩
        (syncStep "w" ⟨.ok "hello", true, true, "he", true, fun _ _ => some 5⟩
          (fun _ => FsObj.absent) ⟨"id1", "a.txt", "c", "m"⟩).fs
        ⟨"id1", "a.txt", "c", "m"⟩).downloadRequested = false :=
  copy_error_discarded "w" _ _ _ _ "hello" 5 (by decide) rfl rfl rfl (by decide) rfl rfl

/-! Helper lemmas about the run-level trace. -/

lemma filter_isListQuery_dlTrace (c : Bool) (i : String) :
    (if c = true then [Action.downloadReq i] else []).filter isListQuery = [] := by
  split <;> rfl

lemma filter_isDownloadReq_single (i : String) :
    [Action.downloadReq i].filter isDownloadReq = [Action.downloadReq i] := rfl

/-- The download loop issues no listing query. -/
lemma syncLoop_trace_no_listQuery (targetDir : String) :
    ∀ (entries : List (RemoteFileEntry × EntryEnv)) (fs : Fs),
      ((syncLoop targetDir fs entries).trace.filter isListQuery) = [] := by
  intro entries
  induction entries with
  | nil => intro fs; rfl
  | cons e rest ih =>
    intro fs
    obtain ⟨f, env⟩ := e
    simp only [syncLoop]
    cases ho : (syncStep targetDir env fs f).outcome <;>
      simp [ho, List.filter_append, ih, filter_isListQuery_dlTrace]

/-- C6.  Empty remote results are fatal before any later stage: with
zero folder matches the run exits with status 1, issues no listing
query and no download request, and the Sync Engine processes nothing;
with zero listed files the run exits with status 1, issues no download
request, and the Sync Engine processes nothing. -/
theorem empty_results_fatal (p s t c : String) (env : RunEnv) (fs : Fs)
    (hm : env.mkdirOk = true) (hsu : env.setupOk = true) :
    (env.folderResult = .ok [] →
        (mainRun [p, s, t, c] env fs).exitCode = 1 ∧
        (mainRun [p, s, t, c] env fs).trace.filter isListQuery = [] ∧
        (mainRun [p, s, t, c] env fs).trace.filter isDownloadReq = [] ∧
        (mainRun [p, s, t, c] env fs).outcomes = [])
  ∧ (env.listResult = .ok [] →
        (mainRun [p, s, t, c] env fs).exitCode = 1 ∧
        (mainRun [p, s, t, c] env fs).trace.filter isDownloadReq = [] ∧
        (mainRun [p, s, t, c] env fs).outcomes = []) := by
  constructor
  · intro hf
    simp [mainRun, hm, hsu, hf, isListQuery, isDownloadReq]
  · intro hl
    cases hf : env.folderResult with
    | error e => simp [mainRun, hm, hsu, hf, isDownloadReq]
    | ok folders =>
      cases folders with
      | nil => simp [mainRun, hm, hsu, hf, isDownloadReq]
      | cons folder others =>
        simp [mainRun, hm, hsu, hf, hl, isDownloadReq]

/-- Witness for C6: a run whose folder query matches nothing exits
fatally with an empty trace of listing/download actions, and a run
whose listing is empty exits fatally without any download request. -/
theorem empty_results_fatal_witness :
    ((mainRun ["prog", "src", "tgt", "cred"]
        ⟨true, true, .ok [], .ok [],
         fun _ => ⟨.ok "", true, false, "", true, fun _ _ => none⟩⟩
        (fun _ => FsObj.absent)).exitCode = 1 ∧
      (mainRun ["prog", "src", "tgt", "cred"]
        ⟨true, true, .ok [], .ok [],
         fun _ => ⟨.ok "", true, false, "", true, fun _ _ => none⟩⟩
        (fun _ => FsObj.absent)).trace.filter isListQuery = [] ∧
      (mainRun ["prog", "src", "tgt", "cred"]
        ⟨true, true, .ok [], .ok [],
         fun _ => ⟨.ok "", true, false, "", true, fun _ _ => none⟩⟩
        (fun _ => FsObj.absent)).trace.filter isDownloadReq = [] ∧
      (mainRun ["prog", "src", "tgt", "cred"]
        ⟨true, true, .ok [], .ok [],
         fun _ => ⟨.ok "", true, false, "", true, fun _ _ => none⟩⟩
        (fun _ => FsObj.absent)).outcomes = [])
  ∧ ((mainRun ["prog", "src", "tgt", "cred"]
        ⟨true, true, .ok [⟨"fid", "src"⟩], .ok [],
         fun _ => ⟨.ok "", true, false, "", true, fun _ _ => none⟩⟩
        (fun _ => FsObj.absent)).exitCode = 1 ∧
      (mainRun ["prog", "src", "tgt", "cred"]
        ⟨true, true, .ok [⟨"fid", "src"⟩], .ok [],
         fun _ => ⟨.ok "", true, false, "", true, fun _ _ => none⟩⟩
        (fun _ => FsObj.absent)).trace.filter isDownloadReq = [] ∧
      (mainRun ["prog", "src", "tgt", "cred"]
        ⟨true, true, .ok [⟨"fid", "src"⟩], .ok [],
         fun _ => ⟨.ok "", true, false, "", true, fun _ _ => none⟩⟩
        (fun _ => FsObj.absent)).outcomes = []) :=
  ⟨(empty_results_fatal "prog" "src" "tgt" "cred" _ _ rfl rfl).1 rfl,
   (empty_results_fatal "prog" "src" "tgt" "cred" _ _ rfl rfl).2 rfl⟩

/-- C7.  Once the folder is resolved, the whole run issues exactly one
listing query: filtered by parent-folder membership over the resolved
folder's id, capped at 25 entries, ordered by creation time descending
— whatever the listing returns and however the download loop goes, no
second (pagination) query appears in the trace. -/
theorem single_listing_query (p s t c : String) (env : RunEnv) (fs : Fs)
    (folder : RemoteFolder) (others : List RemoteFolder)
    (hm : env.mkdirOk = true) (hsu : env.setupOk = true)
    (hf : env.folderResult = .ok (folder :: others)) :
    (mainRun [p, s, t, c] env fs).trace.filter isListQuery =
      [.listQuery (childrenQueryString folder.id) 25 "createdTime desc"] := by
  cases hl : env.listResult with
  | error e => simp [mainRun, hm, hsu, hf, hl, isListQuery]
  | ok files =>
    cases files with
    | nil => simp [mainRun, hm, hsu, hf, hl, isListQuery]
    | cons f0 frest =>
      simp [mainRun, hm, hsu, hf, hl, List.filter_append, isListQuery,
            syncLoop_trace_no_listQuery]

/-- Witness for C7: a run over a resolved folder `fid` with one listed
file issues exactly the single capped, ordered, parent-filtered listing
query. -/
theorem single_listing_query_witness :
    (mainRun ["prog", "src", "tgt", "cred"]
        ⟨true, true, .ok [⟨"fid", "src"⟩], .ok [⟨"id1", "a.txt", "c", "m"⟩],
         fun _ => ⟨.ok "hello", true, false, "", true, fun _ _ => some 5⟩⟩
        (fun _ => FsObj.absent)).trace.filter isListQuery =
      [.listQuery (childrenQueryString "fid") 25 "createdTime desc"] :=
  single_listing_query "prog" "src" "tgt" "cred" _ _ ⟨"fid", "src"⟩ [] rfl rfl rfl

/-- C8.  Invoked with an argument count other than four (program name
plus three positionals), the program prints usage and returns: exit
status 0, an empty action trace, no entry processed, and the
filesystem untouched. -/
theorem wrong_argc_exits_zero (argv : List String) (env : RunEnv) (fs : Fs)
    (h : argv.length ≠ 4) :
    mainRun argv env fs = ⟨0, [], [], fs⟩ := by
  rcases argv with _ | ⟨a, _ | ⟨b, _ | ⟨c, _ | ⟨d, _ | ⟨e, rest⟩⟩⟩⟩⟩
  · rfl
  · rfl
  · rfl
  · rfl
  · exact absurd rfl h
  · rfl

/-- Witness for C8: called with a single argument, the run exits 0
having done nothing. -/
theorem wrong_argc_exits_zero_witness :
    mainRun ["prog"]
        ⟨true, true, .ok [], .ok [],
         fun _ => ⟨.ok "", true, false, "", true, fun _ _ => none⟩⟩
        (fun _ => FsObj.absent) =
      ⟨0, [], [], fun _ => FsObj.absent⟩ :=
  wrong_argc_exits_zero ["prog"] _ _ (by decide)

end DriveSync
